import Mathlib

/-!
Verification of the Jlang compiler front-end (src/jlang.cpp): a shallow
embedding of its lexer (`gettok`), recursive-descent / precedence-climbing
parser (`ParsePrimary`, `ParseBinOpRHS`, `ParseExpression`,
`ParseTopLevelExpr`) and the AST-to-IR lowering (`codegen` methods), together
with theorems settling the specification claims about them.

Conventions of the embedding:
- characters are `Int` character codes; the C `getchar` end-of-input value
  `EOF` is `-1`, and the input stream is an explicit `List Int`;
- C global variables (`LastChar`, `CurTok`, `IdentifierStr`, `NumVal`,
  `NamedValues`, `TheModule`, the builder's emitted instructions, and the
  text printed by `LogError`) are threaded as explicit state;
- `double` values that only flow through the pipeline unchanged are modelled
  as `Rat` (no floating-point arithmetic is ever performed on them by the
  code under verification);
- functions that C expresses with unbounded loops or non-structural
  recursion take an explicit fuel argument; the driver wrappers pass fuel
  that provably suffices, so the embedding stays executable.
-/

/-! ## Character classification (C locale, ASCII) -/

/-- C `isspace`: space, tab, newline, vertical tab, form feed, carriage
return.  False on `EOF` (-1). -/
def cIsspace (c : Int) : Bool := decide (c = 32 ∨ (9 ≤ c ∧ c ≤ 13))

/-- C `isalpha` in the C locale: ASCII letters. -/
def cIsalpha (c : Int) : Bool := decide ((65 ≤ c ∧ c ≤ 90) ∨ (97 ≤ c ∧ c ≤ 122))

/-- C `isdigit`: ASCII decimal digits. -/
def cIsdigit (c : Int) : Bool := decide (48 ≤ c ∧ c ≤ 57)

/-- C `isalnum`: letter or digit. -/
def cIsalnum (c : Int) : Bool := cIsalpha c || cIsdigit c

/-- Character codes of a Lean string literal, as `Int`. -/
def strL (s : String) : List Int := s.toList.map (fun c => (c.toNat : Int))

/-! ## Lexer state: `getchar` on an explicit input stream -/

/-- C `getchar` on the remaining input: returns the next character code and
the rest of the stream, or `EOF` (-1) when the stream is exhausted. -/
def getchar : List Int → Int × List Int
  | [] => (-1, [])
  | c :: rest => (c, rest)

/-- Tokens of jlang.cpp.  `Tok.ch c` is the fall-through case of `gettok`
returning the raw character code; the payloads of `ident` and `num` model
the globals `IdentifierStr` and `NumVal` set by the lexer. -/
inductive Tok where
  | eof : Tok
  | defKw : Tok
  | externKw : Tok
  | ident (s : List Int) : Tok
  | num (v : Rat) : Tok
  | ch (c : Int) : Tok
deriving DecidableEq, Repr

/-- The `while (std::isspace(LastChar)) LastChar = getchar();` loop of
`gettok`: returns the new `LastChar` and remaining input. -/
def skipSpaces : Int → List Int → Int × List Int
  | lc, [] => if cIsspace lc then (-1, []) else (lc, [])
  | lc, c :: rest => if cIsspace lc then skipSpaces c rest else (lc, c :: rest)

/-- The `while (std::isalnum(LastChar = getchar())) IdentifierStr += LastChar;`
loop: accumulates onto `acc`, returning the text, the new `LastChar` and the
remaining input. -/
def readAlnum : List Int → List Int → List Int × Int × List Int
  | acc, [] => (acc, -1, [])
  | acc, c :: rest => if cIsalnum c then readAlnum (acc ++ [c]) rest else (acc, c, rest)

/-- The comment loop `do { LastChar = getchar(); } while (LastChar != EOF &&
LastChar != '\n' && LastChar != '\r');`. -/
def skipComment : List Int → Int × List Int
  | [] => (-1, [])
  | c :: rest => if c = -1 ∨ c = 10 ∨ c = 13 then (c, rest) else skipComment rest

/-- The numeral-branch guard exactly as written in the source:
`std::isdigit((LastChar) || LastChar == '.')`.  The C `||` yields the int 1
or 0, so `isdigit` is applied to 1 or 0 — never to `LastChar` itself. -/
def numGuard (lc : Int) : Bool :=
  cIsdigit (if lc ≠ 0 then 1 else if lc = 46 then 1 else 0)

/-- The guard of the numeral branch is false for every character: `isdigit`
is only ever applied to 0 or 1. -/
theorem numGuard_false (lc : Int) : numGuard lc = false := by
  by_cases h : lc = 0
  · simp [numGuard, cIsdigit, h]
  · by_cases h46 : lc = 46 <;> simp [numGuard, cIsdigit, h, h46]

/-- Models `std::strtod` (C library, external to the repository) on the
digit/dot strings the lexer's `NumStr` can hold: an integer part, optionally
followed by a dot and a fractional part; parsing stops at the first
unparseable character, as the spec describes. -/
def digitsToNat (ds : List Int) : Nat := ds.foldl (fun a c => a * 10 + (c - 48).toNat) 0

def strtodQ (s : List Int) : Rat :=
  let ip := s.takeWhile cIsdigit
  let rest := s.drop ip.length
  match rest with
  | 46 :: t =>
    let fp := t.takeWhile cIsdigit
    (digitsToNat ip : Rat) + (digitsToNat fp : Rat) / ((10 : Rat) ^ fp.length)
  | _ => (digitsToNat ip : Rat)

/-- `gettok` of jlang.cpp, on the state (`LastChar`, remaining input),
returning the token and the new state.  The only recursion is the comment
branch restarting the lexer; it consumes at least one input character, so
fuel `input.length + 1` (provided by the `gettok` wrapper below) always
suffices; the fuel-0 value is never reached from the wrapper. -/
def gettokFuel : Nat → Int → List Int → Tok × Int × List Int
  | 0, lc, inp => (Tok.eof, lc, inp)
  | n + 1, lc, inp =>
    -- deal with spaces
    let p1 := skipSpaces lc inp
    let lc1 := p1.1
    let inp1 := p1.2
    if cIsalpha lc1 then
      -- deal with alpha: IdentifierStr = LastChar; then accumulate alnum
      let r := readAlnum [lc1] inp1
      if r.1 = strL "def" then (Tok.defKw, r.2.1, r.2.2)
      else if r.1 = strL "extern" then (Tok.externKw, r.2.1, r.2.2)
      else (Tok.ident r.1, r.2.1, r.2.2)
    else if numGuard lc1 then
      -- deal with numbers: unreachable (numGuard_false).  The do-while body
      -- runs exactly once because the same degenerate guard controls it.
      let p2 := getchar inp1
      (Tok.num (strtodQ [lc1]), p2.1, p2.2)
    else if lc1 = 35 then
      -- deal with comments: '#' through end of line, then restart
      let p2 := skipComment inp1
      if p2.1 ≠ -1 then gettokFuel n p2.1 p2.2
      else (Tok.eof, p2.1, p2.2)  -- falls through to the EOF check
    else if lc1 = -1 then (Tok.eof, lc1, inp1)
    else
      -- otherwise: return the raw character and advance
      let p2 := getchar inp1
      (Tok.ch lc1, p2.1, p2.2)

/-- The lexer entry point: `gettok` on a state.  `LastChar` starts at `' '`
(32) on the very first call in the C program. -/
def gettok (lc : Int) (inp : List Int) : Tok × Int × List Int :=
  gettokFuel (inp.length + 1) lc inp

/-! ## Lexer lemmas -/

theorem skipSpaces_length : ∀ (lc : Int) (inp : List Int),
    (skipSpaces lc inp).2.length ≤ inp.length := by
  intro lc inp
  induction inp generalizing lc with
  | nil => by_cases h : cIsspace lc <;> simp [skipSpaces, h]
  | cons c rest ih =>
    by_cases h : cIsspace lc
    · simp only [skipSpaces, h, if_true]
      exact le_trans (ih c) (Nat.le_succ _)
    · simp [skipSpaces, h]

theorem skipSpaces_not_space (lc : Int) (inp : List Int) (h : cIsspace lc = false) :
    skipSpaces lc inp = (lc, inp) := by
  cases inp <;> simp [skipSpaces, h]

theorem skipComment_lt : ∀ (inp : List Int), (skipComment inp).1 ≠ -1 →
    (skipComment inp).2.length < inp.length := by
  intro inp
  induction inp with
  | nil => intro h; simp [skipComment] at h
  | cons c rest ih =>
    intro h
    by_cases hc : c = -1 ∨ c = 10 ∨ c = 13
    · simp [skipComment, hc]
    · simp only [skipComment, hc, if_false] at h ⊢
      exact lt_trans (ih h) (Nat.lt_succ_self _)

/-- Whenever `gettokFuel` (with enough fuel) returns `tok_eof`, the stored
`LastChar` of the resulting state is `EOF` (-1). -/
theorem gettokFuel_eof_state : ∀ (n : Nat) (lc : Int) (inp : List Int)
    (lc' : Int) (inp' : List Int), inp.length < n →
    gettokFuel n lc inp = (Tok.eof, lc', inp') → lc' = -1 := by
  intro n
  induction n with
  | zero => intro lc inp lc' inp' hlen; omega
  | succ n ih =>
    intro lc inp lc' inp' hlen h
    simp only [gettokFuel] at h
    by_cases ha : cIsalpha (skipSpaces lc inp).1
    · simp only [ha, if_true] at h
      split at h
      · simp at h
      · split at h <;> simp at h
    · simp only [ha, if_false, numGuard_false, Bool.false_eq_true] at h
      by_cases hh : (skipSpaces lc inp).1 = 35
      · simp only [hh, if_true] at h
        by_cases hcm : (skipComment (skipSpaces lc inp).2).1 ≠ -1
        · rw [if_pos hcm] at h
          have hlt : (skipComment (skipSpaces lc inp).2).2.length < n := by
            have h1 := skipComment_lt (skipSpaces lc inp).2 hcm
            have h2 := skipSpaces_length lc inp
            omega
          exact ih _ _ _ _ hlt h
        · rw [if_neg hcm] at h
          rw [not_not] at hcm
          simp only [Prod.mk.injEq] at h
          exact h.2.1 ▸ hcm
      · simp only [hh, if_false] at h
        by_cases he : (skipSpaces lc inp).1 = -1
        · rw [if_pos he] at h
          simp only [Prod.mk.injEq] at h
          exact h.2.1 ▸ he
        · simp [he] at h

/-- `readAlnum` only ever appends to its accumulator. -/
theorem readAlnum_extends : ∀ (inp acc : List Int),
    ∃ ext, (readAlnum acc inp).1 = acc ++ ext := by
  intro inp
  induction inp with
  | nil => intro acc; exact ⟨[], by simp [readAlnum]⟩
  | cons c rest ih =>
    intro acc
    by_cases h : cIsalnum c
    · simp only [readAlnum, h, if_true]
      obtain ⟨ext, hext⟩ := ih (acc ++ [c])
      exact ⟨c :: ext, by simp [hext]⟩
    · exact ⟨[], by simp [readAlnum, h]⟩

/-- Every identifier the lexer can produce starts with a character that
passed the `isalpha` test: `IdentifierStr` is seeded with the alphabetic
`LastChar` that triggered the branch. -/
theorem gettokFuel_ident_alpha : ∀ (n : Nat) (lc : Int) (inp : List Int)
    (nm : List Int) (r : Int × List Int),
    gettokFuel n lc inp = (Tok.ident nm, r) →
    ∃ c cs, nm = c :: cs ∧ cIsalpha c = true := by
  intro n
  induction n with
  | zero => intro lc inp nm r h; simp [gettokFuel] at h
  | succ n ih =>
    intro lc inp nm r h
    simp only [gettokFuel] at h
    by_cases ha : cIsalpha (skipSpaces lc inp).1
    · simp only [ha, if_true] at h
      split at h
      · simp at h
      · split at h
        · simp at h
        · simp only [Prod.mk.injEq, Tok.ident.injEq] at h
          obtain ⟨ext, hext⟩ := readAlnum_extends (skipSpaces lc inp).2 [(skipSpaces lc inp).1]
          exact ⟨(skipSpaces lc inp).1, ext, by rw [← h.1, hext]; rfl, ha⟩
    · simp only [ha, if_false, numGuard_false, Bool.false_eq_true] at h
      by_cases hh : (skipSpaces lc inp).1 = 35
      · simp only [hh, if_true] at h
        by_cases hcm : (skipComment (skipSpaces lc inp).2).1 ≠ -1
        · rw [if_pos hcm] at h
          exact ih _ _ _ _ h
        · rw [if_neg hcm] at h; simp at h
      · simp only [hh, if_false] at h
        by_cases he : (skipSpaces lc inp).1 = -1
        · rw [if_pos he] at h; simp at h
        · simp [he] at h

/-- Claim C9: once the lexer returns `tok_eof`, the lexer state is pinned at
`LastChar = EOF`, and every further call returns `tok_eof` again with the
state unchanged: end of input is absorbing for the token stream. -/
theorem c9_eof_absorbing (lc : Int) (inp : List Int) (lc' : Int) (inp' : List Int)
    (h : gettok lc inp = (Tok.eof, lc', inp')) :
    gettok lc' inp' = (Tok.eof, lc', inp') := by
  have hlc : lc' = -1 :=
    gettokFuel_eof_state (inp.length + 1) lc inp lc' inp' (Nat.lt_succ_self _) h
  subst hlc
  show gettokFuel (inp'.length + 1) (-1) inp' = _
  simp [gettokFuel, skipSpaces_not_space (-1) inp' (by decide), cIsalpha,
    numGuard_false]

/-- Witness for C9 at a concrete input: lexing the empty input from the
initial state (`LastChar = ' '`) returns `tok_eof`, and the theorem applies:
the subsequent call returns `tok_eof` with the state unchanged. -/
theorem c9_eof_absorbing_witness : gettok (-1) [] = (Tok.eof, -1, []) :=
  c9_eof_absorbing 32 [] (-1) [] (by decide)

/-- Claim C2 (evaluation at the failing input): on the single-numeral input
`"1"` from the lexer's initial state, `gettok` does not produce `tok_number`
at all: the numeral-branch guard `isdigit((LastChar) || LastChar == '.')` is
the constant false, so the digit falls through to the raw-character case and
the lexer returns the character token 49 (`'1'`), then `tok_eof`. -/
theorem c2_lexer_eval :
    gettok 32 [49] = (Tok.ch 49, -1, []) ∧
    gettok (-1) [] = (Tok.eof, -1, []) ∧
    (gettok 32 [49]).1 ≠ Tok.num 1 := by
  refine ⟨by decide, by decide, by decide⟩

/-! ## AST (the ExprAST class hierarchy of jlang.cpp)

`Expr.null` models a null `unique_ptr<ExprAST>`: it arises when the code
reads a pointer that has already been moved from (see `ParseBinOpRHS`). -/

inductive Expr where
  | number (v : Rat)
  | var (name : List Int)
  | binary (op : Int) (lhs rhs : Expr)
  | call (callee : List Int) (args : List Expr)
  | null

structure PrototypeAST where
  name : List Int
  args : List (List Int)
deriving DecidableEq

structure FunctionAST where
  proto : PrototypeAST
  body : Expr

/-! ## Parser

The parser pulls tokens from a stream through one token of lookahead
(`CurTok`).  The globals `IdentifierStr` and `NumVal` hold the payload of
the most recent identifier/number token the lexer produced, i.e. they are
updated exactly when such a token becomes `CurTok`; `ParseNumberExpr` and
`ParseIdentifierExpr` read the globals, not the token.  `diags` records the
messages printed by `LogError`.  Parse failures are `none` results
(null `unique_ptr`s in the C++). -/

structure PState where
  cur : Tok
  identStr : List Int
  numVal : Rat
  rest : List Tok
  diags : List String
deriving DecidableEq

/-- `getNextTok`: pull the next token into `CurTok`.  A drained stream keeps
yielding `tok_eof` (theorem `c9_eof_absorbing`). -/
def getNextTok (s : PState) : PState :=
  match s.rest with
  | [] => { s with cur := Tok.eof, rest := [] }
  | t :: ts =>
    { s with
      cur := t
      rest := ts
      identStr := match t with | Tok.ident nm => nm | _ => s.identStr
      numVal := match t with | Tok.num v => v | _ => s.numVal }

/-- `LogError`: print the diagnostic (and return null, at the call sites). -/
def plog (s : PState) (m : String) : PState := { s with diags := s.diags ++ [m] }

/-- `CurTok` as the C `int` it is in the source: the `Token` enum values are
negative, any other token is its raw character code. -/
def tokCode : Tok → Int
  | Tok.eof => -1
  | Tok.defKw => -2
  | Tok.externKw => -3
  | Tok.ident _ => -4
  | Tok.num _ => -5
  | Tok.ch c => c

/-- `GetTokPrecedence` with the `BinopPrecedence` table installed by `main`:
`'<'` 10, `'+'` 20, `'-'` 20, `'*'` 40.  Non-ASCII (negative) tokens and
characters absent from the table (`map` default 0) give -1. -/
def GetTokPrecedence (t : Tok) : Int :=
  let c := tokCode t
  if c < 0 ∨ 127 < c then -1
  else if c = 60 then 10
  else if c = 43 then 20
  else if c = 45 then 20
  else if c = 42 then 40
  else -1

/-- `ParseNumberExpr`: builds `NumberExprAST(NumVal)` from the global and
advances. -/
def ParseNumberExpr (s : PState) : Option Expr × PState :=
  (some (Expr.number s.numVal), getNextTok s)

mutual

def ParseExpression : Nat → PState → Option Expr × PState
  | 0, s => (none, s)
  | n + 1, s =>
    match ParsePrimary n s with
    | (none, s1) => (none, s1)
    | (some lhs, s1) => ParseBinOpRHS n 0 lhs s1

/-- `ParsePrimary`: the `default:` case of the switch calls `LogError` but
has no `return`, so control falls through into `case tok_number:` and a
`NumberExprAST` holding the stale `NumVal` is built from the unknown
token. -/
def ParsePrimary : Nat → PState → Option Expr × PState
  | 0, s => (none, s)
  | n + 1, s =>
    match s.cur with
    | Tok.num _ => ParseNumberExpr s
    | Tok.ident _ => ParseIdentifierExpr n s
    | t =>
      if t = Tok.ch 40 then ParseParenExpr n s
      else ParseNumberExpr (plog s "Unkown token while parsing!")

def ParseParenExpr : Nat → PState → Option Expr × PState
  | 0, s => (none, s)
  | n + 1, s =>
    let s1 := getNextTok s
    match ParseExpression n s1 with
    | (none, s2) => (none, s2)
    | (some v, s2) =>
      if s2.cur = Tok.ch 41 then (some v, getNextTok s2)
      else (none, plog s2 "Expected )")  -- C++ text: Expected right paren

def ParseIdentifierExpr : Nat → PState → Option Expr × PState
  | 0, s => (none, s)
  | n + 1, s =>
    let idName := s.identStr
    let s1 := getNextTok s
    if s1.cur = Tok.ch 40 then
      let s2 := getNextTok s1
      if s2.cur = Tok.ch 41 then (some (Expr.call idName []), getNextTok s2)
      else
        match ParseArgs n [] s2 with
        | (none, s3) => (none, s3)
        | (some args, s3) => (some (Expr.call idName args), getNextTok s3)
    else (some (Expr.var idName), s1)

/-- The argument-list `while (true)` loop of `ParseIdentifierExpr`. -/
def ParseArgs : Nat → List Expr → PState → Option (List Expr) × PState
  | 0, _, s => (none, s)
  | n + 1, acc, s =>
    match ParseExpression n s with
    | (none, s1) => (none, s1)
    | (some arg, s1) =>
      if s1.cur = Tok.ch 41 then (some (acc ++ [arg]), s1)
      else if s1.cur = Tok.ch 44 then ParseArgs n (acc ++ [arg]) (getNextTok s1)
      else (none, plog s1 "Expected ) or , in the argument list")

/-- `ParseBinOpRHS`.  Source line 269 reads
`RHS = ParseBinOpRHS(TokPrec + 1, std::move(LHS));` — it moves `LHS`, not
`RHS`, into the recursive call: the freshly parsed primary is discarded,
and the `make_unique<BinaryExprAST>(BinOp, std::move(LHS), std::move(RHS))`
that follows reads the moved-from (null) `LHS`, modelled by `Expr.null`. -/
def ParseBinOpRHS : Nat → Int → Expr → PState → Option Expr × PState
  | 0, _, _, s => (none, s)
  | n + 1, exprPrec, lhs, s =>
    let tokPrec := GetTokPrecedence s.cur
    if tokPrec < exprPrec then (some lhs, s)
    else
      let binOp := tokCode s.cur
      let s1 := getNextTok s
      match ParsePrimary n s1 with
      | (none, s2) => (none, s2)
      | (some rhs, s2) =>
        let nextPrec := GetTokPrecedence s2.cur
        if tokPrec < nextPrec then
          match ParseBinOpRHS n (tokPrec + 1) lhs s2 with
          | (none, s3) => (none, s3)
          | (some rhs2, s3) =>
            ParseBinOpRHS n exprPrec (Expr.binary binOp Expr.null rhs2) s3
        else
          ParseBinOpRHS n exprPrec (Expr.binary binOp lhs rhs) s2

end

/-- The reserved name `"__anon_expr"` used by `ParseTopLevelExpr`. -/
def anonExprName : List Int := strL "__anon_expr"

/-- `ParseTopLevelExpr`: wrap a bare expression in an anonymous
zero-parameter `FunctionAST`. -/
def ParseTopLevelExpr (n : Nat) (s : PState) : Option FunctionAST × PState :=
  match ParseExpression n s with
  | (some e, s1) => (some ⟨⟨anonExprName, []⟩, e⟩, s1)
  | (none, s1) => (none, s1)

/-- The parser state `main` establishes before `MainLoop`: one `getNextTok`
has primed `CurTok`; the globals start as the C statics (`NumVal = 0`,
empty `IdentifierStr`). -/
def mkInit (ts : List Tok) : PState :=
  getNextTok { cur := Tok.eof, identStr := [], numVal := 0, rest := ts, diags := [] }

/-! ## Parser claims -/

/-- Claim C1, evaluated on the spec's three examples (as token streams).
`1*2+3` and `1-2-3` parse as the spec says, but `1+2*3` — the case in which
a tighter-binding operator follows a looser one — does not: `ParseBinOpRHS`
moves `LHS` (not `RHS`) into its recursive call and then combines with the
moved-from null pointer, producing `'+'(null, 1*3)` instead of `1+(2*3)`
(the parsed `2` is discarded). -/
theorem c1_precedence_eval :
    (ParseExpression 20 (mkInit [Tok.num 1, Tok.ch 43, Tok.num 2, Tok.ch 42, Tok.num 3])).1
      = some (Expr.binary 43 Expr.null (Expr.binary 42 (Expr.number 1) (Expr.number 3))) ∧
    (ParseExpression 20 (mkInit [Tok.num 1, Tok.ch 42, Tok.num 2, Tok.ch 43, Tok.num 3])).1
      = some (Expr.binary 43 (Expr.binary 42 (Expr.number 1) (Expr.number 2)) (Expr.number 3)) ∧
    (ParseExpression 20 (mkInit [Tok.num 1, Tok.ch 45, Tok.num 2, Tok.ch 45, Tok.num 3])).1
      = some (Expr.binary 45 (Expr.binary 45 (Expr.number 1) (Expr.number 2)) (Expr.number 3)) ∧
    (ParseExpression 20 (mkInit [Tok.num 1, Tok.ch 43, Tok.num 2, Tok.ch 42, Tok.num 3])).1
      ≠ some (Expr.binary 43 (Expr.number 1) (Expr.binary 42 (Expr.number 2) (Expr.number 3))) := by
  refine ⟨rfl, rfl, rfl, ?_⟩
  intro h
  rw [show (ParseExpression 20 (mkInit [Tok.num 1, Tok.ch 43, Tok.num 2, Tok.ch 42, Tok.num 3])).1
      = some (Expr.binary 43 Expr.null (Expr.binary 42 (Expr.number 1) (Expr.number 3))) from rfl] at h
  simp at h

/-- Claim C3, evaluated at the failing input: with the current token `'+'`
(code 43) — neither a number, an identifier nor `'('` — `ParsePrimary` does
print the "Unkown token while parsing!" diagnostic, but the missing `return`
makes it fall through into the `tok_number` case: it consumes the token and
returns a successfully constructed `NumberExprAST` holding the stale
`NumVal`, not an absent result. -/
theorem c3_primary_eval :
    ParsePrimary 5 { cur := Tok.ch 43, identStr := [], numVal := 0, rest := [], diags := [] }
      = (some (Expr.number 0),
         { cur := Tok.eof, identStr := [], numVal := 0, rest := [],
           diags := ["Unkown token while parsing!"] }) ∧
    (some (Expr.number 0) : Option Expr) ≠ none :=
  ⟨rfl, by simp⟩

/-- Claim C10: a successfully parsed bare top-level expression is wrapped as
an anonymous `FunctionAST` whose prototype is named `"__anon_expr"` and has
zero parameters; and no identifier the lexer can produce equals that name,
because every lexed identifier starts with an `isalpha` character while the
reserved name starts with `'_'` (code 95), which is not alphanumeric. -/
theorem c10_anon_wrapper :
    (∀ (n : Nat) (s : PState) (e : Expr) (s1 : PState),
        ParseExpression n s = (some e, s1) →
        ParseTopLevelExpr n s = (some ⟨⟨anonExprName, []⟩, e⟩, s1)) ∧
    (∀ (lc : Int) (inp : List Int) (nm : List Int) (r : Int × List Int),
        gettok lc inp = (Tok.ident nm, r) → nm ≠ anonExprName) := by
  constructor
  · intro n s e s1 h
    simp [ParseTopLevelExpr, h]
  · intro lc inp nm r h hne
    unfold gettok at h
    obtain ⟨c, cs, hnm, hc⟩ := gettokFuel_ident_alpha (inp.length + 1) lc inp nm r h
    rw [hne] at hnm
    have h95 : anonExprName = (95 : Int) :: strL "_anon_expr" := rfl
    rw [h95] at hnm
    injection hnm with h1 h2
    rw [← h1] at hc
    exact absurd hc (by decide)

/-- Witness for C10: parsing the bare expression `7` wraps it as
`__anon_expr()` with body `7`, and the concrete lexed identifier `"dog"` is
not the reserved name. -/
theorem c10_anon_wrapper_witness :
    ParseTopLevelExpr 10 (mkInit [Tok.num 7]) =
      (some ⟨⟨anonExprName, []⟩, Expr.number 7⟩,
       { cur := Tok.eof, identStr := [], numVal := 7, rest := [], diags := [] }) ∧
    ([100, 111, 103] : List Int) ≠ anonExprName :=
  ⟨c10_anon_wrapper.1 10 (mkInit [Tok.num 7]) (Expr.number 7)
      { cur := Tok.eof, identStr := [], numVal := 7, rest := [], diags := [] } rfl,
   c10_anon_wrapper.2 32 [100, 111, 103] [100, 111, 103] (-1, []) rfl⟩

/-! ## Lowering (AST → LLVM IR)

The IR collaborator (LLVM) is modelled just deeply enough for the lowering
code's observable behaviour: `TheModule`'s function symbol table, the values
the builder hands back, the chronological list of emitted instructions, and
the diagnostics of `LogErrorV`.  A `Func` is an IR function handle; `fid` is
its identity (the C++ `Function*` pointer), `name` its symbol name in the
module, `params` the names assigned to its arguments by `setName`. -/

structure Func where
  fid : Nat
  name : List Int
  params : List (List Int)
deriving DecidableEq, Repr

structure IRModule where
  funcs : List Func
  nextId : Nat
deriving DecidableEq, Repr

/-- IR values: floating constants, function arguments, instruction
results. -/
inductive Value where
  | constFP (v : Rat)
  | arg (fid : Nat) (idx : Nat)
  | instr (id : Nat)
deriving DecidableEq, Repr

/-- Builder-emitted instructions (the narrow backend contract of spec §6). -/
inductive Instr where
  | fadd (iid : Nat) (l r : Value)
  | fsub (iid : Nat) (l r : Value)
  | fmul (iid : Nat) (l r : Value)
  | fcmpult (iid : Nat) (l r : Value)
  | uitofp (iid : Nat) (v : Value)
  | callI (iid : Nat) (fid : Nat) (args : List Value)
  | ret (v : Value)
deriving DecidableEq, Repr

/-- Lowering state: the module, `NamedValues`, the builder's chronological
emission trace, the fresh-instruction counter, and the diagnostics printed
by `LogErrorV`. -/
structure St where
  mod : IRModule
  namedValues : List (List Int × Value)
  instrs : List Instr
  nextInstr : Nat
  diags : List String
deriving DecidableEq, Repr

/-- `Module::getFunction`: look a function up by symbol name. -/
def getFunction (m : IRModule) (n : List Int) : Option Func :=
  m.funcs.find? (fun f => f.name = n)

/-- Decimal digit characters of a natural number. -/
def digitsAux : Nat → Nat → List Int → List Int
  | 0, n, acc => ((48 + n % 10 : Nat) : Int) :: acc
  | f + 1, n, acc =>
    if n < 10 then ((48 + n : Nat) : Int) :: acc
    else digitsAux f (n / 10) (((48 + n % 10 : Nat) : Int) :: acc)

def natToDigits (n : Nat) : List Int := digitsAux n n []

def nameTaken (fs : List Func) (n : List Int) : Bool := fs.any (fun f => f.name = n)

/-- Candidate symbol names `n`, `n.0`, `n.1`, ... -/
def candName (n : List Int) : Nat → List Int
  | 0 => n
  | k + 1 => n ++ [46] ++ natToDigits k

/-- Modelled from the spec: the IR builder collaborator (spec §6, external
to the repository) registers a created function under the requested symbol
name, uniquifying it with a numeric suffix when the name is already taken
(LLVM value-naming semantics).  Among `fs.length + 1` distinct candidates at
least one is free, so the fallback arm is unreachable. -/
def freshName (fs : List Func) (n : List Int) : List Int :=
  match (List.range (fs.length + 1)).find? (fun k => ! nameTaken fs (candName n k)) with
  | some k => candName n k
  | none => candName n (fs.length + 1)

/-- `LogErrorV` (via `LogError`): print the diagnostic; the caller returns
null. -/
def vlog (st : St) (m : String) : St := { st with diags := st.diags ++ [m] }

/-- Builder emission of one value-producing instruction. -/
def emit (st : St) (mk : Nat → Instr) : Value × St :=
  (Value.instr st.nextInstr,
   { st with instrs := st.instrs ++ [mk st.nextInstr], nextInstr := st.nextInstr + 1 })

/-- `NamedValues` lookup.  `std::map::operator[]` overwrites on duplicate
insertion, so the most recent binding of a name wins. -/
def lookupNV (nv : List (List Int × Value)) (n : List Int) : Option Value :=
  (nv.reverse.find? (fun p => p.1 = n)).map (fun p => p.2)

mutual

/-- `ExprAST::codegen` of jlang.cpp.

- `NumberExpr` materializes a constant.
- `VariableExpr` looks `Name` up in `NamedValues`; on a miss the C++ logs
  and returns the null map-default.
- `BinaryExpr` lowers `LHS` and then `RHS` unconditionally, only afterwards
  checking `if (!L || !R) return nullptr;`, then dispatches on the operator.
- `CallExpr` resolves the callee, checks the arity before lowering any
  argument, then lowers arguments left to right, returning null at the
  first failed argument, and finally emits the call.
- `Expr.null` is a null `unique_ptr`; invoking `codegen()` through it is a
  null-pointer dereference in C++, modelled as failure. -/
def Expr.codegen : Expr → St → Option Value × St
  | Expr.number v, st => (some (Value.constFP v), st)
  | Expr.var name, st =>
    match lookupNV st.namedValues name with
    | some v => (some v, st)
    | none => (none, vlog st "Unkown variable name!")
  | Expr.binary op l r, st =>
    let p1 := Expr.codegen l st
    let p2 := Expr.codegen r p1.2
    match p1.1, p2.1 with
    | some lv, some rv =>
      if op = 43 then
        let e := emit p2.2 (fun i => Instr.fadd i lv rv)
        (some e.1, e.2)
      else if op = 45 then
        let e := emit p2.2 (fun i => Instr.fsub i lv rv)
        (some e.1, e.2)
      else if op = 42 then
        let e := emit p2.2 (fun i => Instr.fmul i lv rv)
        (some e.1, e.2)
      else if op = 60 then
        let e1 := emit p2.2 (fun i => Instr.fcmpult i lv rv)
        let e2 := emit e1.2 (fun i => Instr.uitofp i e1.1)
        (some e2.1, e2.2)
      else (none, vlog p2.2 "invalid binary operator!")
    | _, _ => (none, p2.2)
  | Expr.call callee args, st =>
    match getFunction st.mod callee with
    | none => (none, vlog st "Unkown function referenced!")
    | some f =>
      if f.params.length ≠ args.length then (none, vlog st "Incorrect argument number!")
      else
        match codegenList args st with
        | (some vs, st1) =>
          let e := emit st1 (fun i => Instr.callI i f.fid vs)
          (some e.1, e.2)
        | (none, st1) => (none, st1)
  | Expr.null, st => (none, st)

/-- The argument loop of `CallExprAST::codegen`: push each lowered argument,
return null as soon as one fails. -/
def codegenList : List Expr → St → Option (List Value) × St
  | [], st => (some [], st)
  | a :: rest, st =>
    match Expr.codegen a st with
    | (none, st1) => (none, st1)
    | (some v, st1) =>
      match codegenList rest st1 with
      | (some vs, st2) => (some (v :: vs), st2)
      | (none, st2) => (none, st2)

end

/-- `PrototypeAST::codegen`: unconditionally `Function::Create`s a new
function with one double parameter per declared name — there is no module
lookup here — and `setName`s each parameter after its source name. -/
def PrototypeAST.codegen (p : PrototypeAST) (st : St) : Func × St :=
  let f : Func := ⟨st.mod.nextId, freshName st.mod.funcs p.name, p.args⟩
  (f, { st with mod := ⟨st.mod.funcs ++ [f], st.mod.nextId + 1⟩ })

/-- `NamedValues` after `FunctionAST::codegen` clears it and inserts every
argument of `TheFunction` under the name stored on the handle
(`Arg.getName()`), i.e. the parameter names of the first declaration. -/
def argScope (f : Func) : List (List Int × Value) :=
  f.params.enum.map (fun p => (p.2, Value.arg f.fid p.1))

/-- `Function::eraseFromParent`: remove the handle from the module. -/
def IRModule.eraseFun (m : IRModule) (fid : Nat) : IRModule :=
  ⟨m.funcs.filter (fun g => g.fid ≠ fid), m.nextId⟩

/-- `Builder->CreateRet` (the `verifyFunction` result is unused). -/
def emitRet (v : Value) (st : St) : St := { st with instrs := st.instrs ++ [Instr.ret v] }

/-- `FunctionAST::codegen`: reuse the module's handle for the prototype's
name if present (no arity or prototype check), otherwise lower the
prototype; the C++ null test on the result never fires because
`PrototypeAST::codegen` always returns a function.  Then create the entry
block, reset `NamedValues` to the handle's parameters, lower the body;
on success emit the return, on failure erase the whole function from the
module. -/
def FunctionAST.codegen (fn : FunctionAST) (st : St) : Option Func × St :=
  let p :=
    match getFunction st.mod fn.proto.name with
    | some f => (f, st)
    | none => fn.proto.codegen st
  let theFunction := p.1
  let st2 := { p.2 with namedValues := argScope theFunction }
  match Expr.codegen fn.body st2 with
  | (some rv, st3) => (some theFunction, emitRet rv st3)
  | (none, st3) => (none, { st3 with mod := st3.mod.eraseFun theFunction.fid })

/-! ## Lowering lemmas -/

mutual

/-- Expression lowering never touches the module's function table. -/
theorem codegen_mod (e : Expr) (st : St) : ((Expr.codegen e st).2).mod = st.mod := by
  cases e with
  | number v => rfl
  | null => rfl
  | var n =>
    simp only [Expr.codegen]
    cases lookupNV st.namedValues n <;> rfl
  | binary op l r =>
    have h1 := codegen_mod l st
    have h2 := codegen_mod r (Expr.codegen l st).2
    simp only [Expr.codegen]
    split
    · split_ifs <;> simp [emit, vlog, h2, h1]
    · simp [h2, h1]
  | call c args =>
    have hl := codegenList_mod args st
    simp only [Expr.codegen]
    split
    · simp [vlog]
    · split_ifs with har
      · simp [vlog]
      · split
        next vs st1 heq =>
          have h := congrArg (fun p => (p.2).mod) heq
          simp only at h
          simp only [emit]
          rw [← h]
          exact hl
        next st1 heq =>
          have h := congrArg (fun p => (p.2).mod) heq
          simp only at h
          rw [← h]
          exact hl

theorem codegenList_mod (es : List Expr) (st : St) : ((codegenList es st).2).mod = st.mod := by
  cases es with
  | nil => rfl
  | cons a rest =>
    have h1 := codegen_mod a st
    simp only [codegenList]
    split
    next st1 heq =>
      have h := congrArg (fun p => (p.2).mod) heq
      simp only at h
      rw [← h]
      exact h1
    next v st1 heq =>
      have h := congrArg (fun p => (p.2).mod) heq
      simp only at h
      have h2 := codegenList_mod rest st1
      split
      next vs st2 heq2 =>
        have hh := congrArg (fun p => (p.2).mod) heq2
        simp only at hh
        rw [← hh, h2, ← h]
        exact h1
      next st2 heq2 =>
        have hh := congrArg (fun p => (p.2).mod) heq2
        simp only at hh
        rw [← hh, h2, ← h]
        exact h1

end

/-- The argument loop aborts at the first failing argument: whatever trails
it is never lowered, and the loop's result state is the failing argument's
state. -/
theorem codegenList_abort (as1 : List Expr) (a : Expr) (as2 : List Expr) :
    ∀ (st st1 st2 : St) (vs : List Value),
    codegenList as1 st = (some vs, st1) → Expr.codegen a st1 = (none, st2) →
    codegenList (as1 ++ a :: as2) st = (none, st2) := by
  induction as1 with
  | nil =>
    intro st st1 st2 vs h1 h2
    simp only [codegenList, Prod.mk.injEq] at h1
    obtain ⟨-, hst⟩ := h1
    subst hst
    simp only [List.nil_append, codegenList, h2]
  | cons b rest ih =>
    intro st st1 st2 vs h1 h2
    simp only [codegenList] at h1
    cases hb : Expr.codegen b st with
    | mk bv stb =>
      cases bv with
      | none => rw [hb] at h1; simp at h1
      | some bvv =>
        rw [hb] at h1
        dsimp only at h1
        cases hrest : codegenList rest stb with
        | mk rv str =>
          cases rv with
          | none => rw [hrest] at h1; simp at h1
          | some rvs =>
            rw [hrest] at h1
            simp only [Prod.mk.injEq] at h1
            obtain ⟨-, hst⟩ := h1
            simp only [List.cons_append, codegenList, hb, List.append_eq]
            rw [ih stb st1 st2 rvs (by rw [hrest, hst]) h2]

/-! ## Lowering fixtures -/

/-- The empty lowering state right after `InitializeModule`. -/
def stEmpty : St := { mod := ⟨[], 0⟩, namedValues := [], instrs := [], nextInstr := 0, diags := [] }

/-- A module already holding `extern f(a)` : handle 0, name `f`,
parameter `a`. -/
def fFunc : Func := ⟨0, strL "f", [strL "a"]⟩

def stF : St := { mod := ⟨[fFunc], 1⟩, namedValues := [], instrs := [], nextInstr := 0, diags := [] }

/-- A module already holding `extern g(p q r)` : handle 5, arity 3. -/
def gFunc : Func := ⟨5, strL "g", [strL "p", strL "q", strL "r"]⟩

def stG : St := { mod := ⟨[gFunc], 6⟩, namedValues := [], instrs := [], nextInstr := 0, diags := [] }

/-! ## Lowering claims -/

/-- Counterexample to claim C4 as stated: re-lowering the prototype `f(a)`
when `f` is already in the module table does not reuse the existing handle —
`PrototypeAST::codegen` has no module lookup — it creates a second, distinct
function entry (LLVM uniquifies its symbol name), and the module table keeps
resolving `"f"` to the old handle. -/
theorem c4_counterexample :
    ((PrototypeAST.codegen ⟨strL "f", [strL "a"]⟩ stF).2).mod.funcs.length = 2 ∧
    (PrototypeAST.codegen ⟨strL "f", [strL "a"]⟩ stF).1 ≠ fFunc ∧
    getFunction ((PrototypeAST.codegen ⟨strL "f", [strL "a"]⟩ stF).2).mod (strL "f")
      = some fFunc := by
  refine ⟨rfl, ?_, rfl⟩
  decide

/-- Claim C4 as amended: lowering a `Prototype` always creates and registers
a brand-new function entry (never reusing an existing one of the same name);
the handle reuse that supports the extern-then-def flow lives in
`FunctionAST::codegen`, which consults the module table first and, on a hit,
returns the existing handle without invoking prototype lowering. -/
theorem c4_amended :
    (∀ (st : St) (p : PrototypeAST),
        ((PrototypeAST.codegen p st).2).mod.funcs.length = st.mod.funcs.length + 1 ∧
        (∀ g ∈ st.mod.funcs, g.fid < st.mod.nextId → (PrototypeAST.codegen p st).1.fid ≠ g.fid)) ∧
    (∀ (st : St) (fn : FunctionAST) (f : Func) (v : Value) (st3 : St),
        getFunction st.mod fn.proto.name = some f →
        Expr.codegen fn.body { st with namedValues := argScope f } = (some v, st3) →
        FunctionAST.codegen fn st = (some f, emitRet v st3)) := by
  constructor
  · intro st p
    constructor
    · simp [PrototypeAST.codegen]
    · intro g hg hlt
      simp only [PrototypeAST.codegen]
      omega
  · intro st fn f v st3 h1 h2
    simp only [FunctionAST.codegen, h1]
    rw [h2]

/-- Witness for the amended C4: lowering prototype `f()` over a module that
already has `f` yields a two-entry table, and lowering `def f(a) 2` over the
same module reuses the existing handle `fFunc`. -/
theorem c4_amended_witness :
    ((PrototypeAST.codegen ⟨strL "f", []⟩ stF).2).mod.funcs.length = 2 ∧
    FunctionAST.codegen ⟨⟨strL "f", [strL "a"]⟩, Expr.number 2⟩ stF
      = (some fFunc,
         emitRet (Value.constFP 2) { stF with namedValues := argScope fFunc }) :=
  ⟨(c4_amended.1 stF ⟨strL "f", []⟩).1,
   c4_amended.2 stF ⟨⟨strL "f", [strL "a"]⟩, Expr.number 2⟩ fFunc (Value.constFP 2)
     { stF with namedValues := argScope fFunc } rfl rfl⟩

/-- Counterexample to claim C5 as stated: lowering `x + y` with neither
variable in scope fails, but the final state records the "unknown variable"
diagnostic twice — the right-hand side was lowered even though the left-hand
side had already failed, so the failure does not propagate "immediately
without lowering the other side": the final state differs from the state
right after the failed left-hand side. -/
theorem c5_counterexample :
    (Expr.codegen (Expr.binary 43 (Expr.var (strL "x")) (Expr.var (strL "y"))) stEmpty).1
      = none ∧
    ((Expr.codegen (Expr.binary 43 (Expr.var (strL "x")) (Expr.var (strL "y"))) stEmpty).2).diags
      = ["Unkown variable name!", "Unkown variable name!"] ∧
    (Expr.codegen (Expr.binary 43 (Expr.var (strL "x")) (Expr.var (strL "y"))) stEmpty).2
      ≠ (Expr.codegen (Expr.var (strL "x")) stEmpty).2 := by
  refine ⟨rfl, rfl, ?_⟩
  decide

/-- Claim C5 as amended: `BinaryExprAST::codegen` lowers `LHS` first and, if
that fails, still lowers `RHS` (whose side effects land in the state) and
only then returns failure; the result state is the one left by the
right-hand side. -/
theorem c5_amended (op : Int) (l r : Expr) (st st1 : St)
    (h : Expr.codegen l st = (none, st1)) :
    Expr.codegen (Expr.binary op l r) st = (none, (Expr.codegen r st1).2) := by
  simp only [Expr.codegen, h]

/-- Witness for the amended C5 at a concrete input: `x + 1` in an empty
scope fails with the right-hand side's (here effect-free) lowering included
in the final state. -/
theorem c5_amended_witness :
    Expr.codegen (Expr.binary 43 (Expr.var (strL "x")) (Expr.number 1)) stEmpty
      = (none, (Expr.codegen (Expr.number 1) (vlog stEmpty "Unkown variable name!")).2) :=
  c5_amended 43 (Expr.var (strL "x")) (Expr.number 1) stEmpty
    (vlog stEmpty "Unkown variable name!") rfl

/-- Claim C6: lowering a `CallExpr` fails with the "unknown function"
diagnostic when the callee is not in the module table; fails with the
"incorrect argument number" diagnostic — lowering no argument and emitting
nothing — when the resolved callee's declared parameter count differs from
the supplied argument count; and otherwise lowers the arguments left to
right, aborting at the first failing argument with the trailing arguments
never lowered. -/
theorem c6_call_codegen :
    (∀ (st : St) (callee : List Int) (args : List Expr),
        getFunction st.mod callee = none →
        Expr.codegen (Expr.call callee args) st
          = (none, vlog st "Unkown function referenced!")) ∧
    (∀ (st : St) (callee : List Int) (args : List Expr) (f : Func),
        getFunction st.mod callee = some f → f.params.length ≠ args.length →
        Expr.codegen (Expr.call callee args) st
          = (none, vlog st "Incorrect argument number!")) ∧
    (∀ (st st1 st2 : St) (callee : List Int) (as1 : List Expr) (a : Expr)
        (as2 : List Expr) (f : Func) (vs : List Value),
        getFunction st.mod callee = some f →
        f.params.length = (as1 ++ a :: as2).length →
        codegenList as1 st = (some vs, st1) →
        Expr.codegen a st1 = (none, st2) →
        Expr.codegen (Expr.call callee (as1 ++ a :: as2)) st = (none, st2)) := by
  refine ⟨?_, ?_, ?_⟩
  · intro st callee args h
    simp only [Expr.codegen, h]
  · intro st callee args f h har
    simp only [Expr.codegen, h]
    rw [if_pos har]
  · intro st st1 st2 callee as1 a as2 f vs h har hpre hfail
    simp only [Expr.codegen, h]
    rw [if_neg (by omega), codegenList_abort as1 a as2 st st1 st2 vs hpre hfail]

/-- Witness for C6 at concrete inputs: calling an absent `h`; calling the
3-parameter `g` with one argument; and calling `g` with three arguments the
second of which fails, aborting with only that failure's effect. -/
theorem c6_call_codegen_witness :
    Expr.codegen (Expr.call (strL "h") []) stEmpty
      = (none, vlog stEmpty "Unkown function referenced!") ∧
    Expr.codegen (Expr.call (strL "g") [Expr.number 1]) stG
      = (none, vlog stG "Incorrect argument number!") ∧
    Expr.codegen (Expr.call (strL "g")
        [Expr.number 1, Expr.var (strL "x"), Expr.number 2]) stG
      = (none, vlog stG "Unkown variable name!") :=
  ⟨c6_call_codegen.1 stEmpty (strL "h") [] rfl,
   c6_call_codegen.2.1 stG (strL "g") [Expr.number 1] gFunc rfl (by decide),
   c6_call_codegen.2.2 stG stG (vlog stG "Unkown variable name!") (strL "g")
     [Expr.number 1] (Expr.var (strL "x")) [Expr.number 2] gFunc [Value.constFP 1]
     rfl (by decide) rfl rfl⟩

/-- Claim C7: when lowering a `Function` whose prototype name already has a
handle in the module (e.g. from an earlier extern declaration) and the body
lowering fails, `eraseFromParent` removes that very handle: the resulting
module is the original minus every entry with the handle's identity — the
previously registered declaration is removed, not restored. -/
theorem c7_failed_body_erased (st : St) (fn : FunctionAST) (f : Func) (st3 : St)
    (h1 : getFunction st.mod fn.proto.name = some f)
    (h2 : Expr.codegen fn.body { st with namedValues := argScope f } = (none, st3)) :
    FunctionAST.codegen fn st =
      (none, { st3 with
        mod := ⟨st.mod.funcs.filter (fun g => g.fid ≠ f.fid), st.mod.nextId⟩ }) := by
  have hmod : st3.mod = st.mod := by
    have h := codegen_mod fn.body { st with namedValues := argScope f }
    rw [h2] at h
    exact h
  simp only [FunctionAST.codegen, h1]
  rw [h2]
  simp only [IRModule.eraseFun, hmod]

/-- Witness for C7: `def f(b) q` over the module already declaring `f(a)`:
the body's unknown variable fails, and the previously registered `f` is
erased, leaving an empty function table. -/
theorem c7_failed_body_erased_witness :
    FunctionAST.codegen ⟨⟨strL "f", [strL "b"]⟩, Expr.var (strL "q")⟩ stF
      = (none,
         { mod := ⟨[], 1⟩,
           namedValues := [(strL "a", Value.arg 0 0)],
           instrs := [],
           nextInstr := 0,
           diags := ["Unkown variable name!"] }) :=
  c7_failed_body_erased stF ⟨⟨strL "f", [strL "b"]⟩, Expr.var (strL "q")⟩ fFunc
    { mod := ⟨[fFunc], 1⟩, namedValues := [(strL "a", Value.arg 0 0)], instrs := [],
      nextInstr := 0, diags := ["Unkown variable name!"] }
    rfl rfl

/-- Claim C8, evaluated: lowering `def f(x y z) ...` over a module whose `f`
was declared as `f(a)` reuses the existing handle without any arity or
prototype check (arity 3 against declared arity 1 is accepted), creates no
new table entry, and populates the parameter scope from the existing
handle's parameter names: body `a` (the first declaration's name) resolves,
while body `x` (the new definition's own parameter name) fails with the
unknown-variable diagnostic. -/
theorem c8_reuse_existing_handle :
    (FunctionAST.codegen ⟨⟨strL "f", [strL "x", strL "y", strL "z"]⟩,
        Expr.var (strL "a")⟩ stF).1 = some fFunc ∧
    ((FunctionAST.codegen ⟨⟨strL "f", [strL "x", strL "y", strL "z"]⟩,
        Expr.var (strL "a")⟩ stF).2).mod = stF.mod ∧
    (FunctionAST.codegen ⟨⟨strL "f", [strL "x", strL "y", strL "z"]⟩,
        Expr.var (strL "x")⟩ stF).1 = none ∧
    ((FunctionAST.codegen ⟨⟨strL "f", [strL "x", strL "y", strL "z"]⟩,
        Expr.var (strL "x")⟩ stF).2).diags = ["Unkown variable name!"] :=
  ⟨rfl, rfl, rfl, rfl⟩
